import Mathlib

/-!
Shallow embedding of `src/index.js` of the pixelframe-agent-action
repository.

Conventions used throughout:
* JavaScript `undefined`/`null` string fields are `Option String`; the
  empty string is falsy for `||`, which `jsOr`/`truthyStr` mirror.
* Filesystem paths are lists of segments; `path.resolve(cwd, p)` for a
  relative `p` becomes `resolvePath`.
* Every event-emitting control path (status notifications, git commands,
  HTTP calls) is embedded as a pure function returning an event trace
  alongside its result, so that claims about "no call happens" or
  "exactly one notification" become statements about the trace.
* Timers and network transport are abstracted: a poll iteration's
  `fetch` result is a `PollResponse` supplied by an oracle
  `Nat → PollResponse` indexed by attempt number.
-/

namespace PixelFrame

/-- JavaScript truthiness on an optional string: `undefined` and `""` are
falsy. -/
def truthyStr : Option String → Option String
  | none => none
  | some s => if s = "" then none else some s

/-- JavaScript `a || b` on optional strings. -/
def jsOr (a b : Option String) : Option String :=
  match truthyStr a with
  | some s => some s
  | none => truthyStr b

/-- JavaScript truthiness on an optional number: `undefined` and `0` are
falsy. -/
def truthyN : Option Nat → Option Nat
  | none => none
  | some n => if n = 0 then none else some n

/-- JavaScript `a || b` on optional numbers. -/
def jsOrN (a b : Option Nat) : Option Nat :=
  match truthyN a with
  | some n => some n
  | none => truthyN b

/-! ### Paths and the filesystem (`writeFileChange`, `removeFile`) -/

/-- One step of POSIX path normalisation as performed by Node's
`path.resolve`: `..` pops the last segment, `.` and empty segments are
ignored, anything else is appended. -/
def resolveStep (acc : List String) (seg : String) : List String :=
  if seg = ".." then acc.dropLast
  else if seg = "." ∨ seg = "" then acc
  else acc ++ [seg]

/-- `path.resolve(cwd, p)` for a relative path `p`, on segment lists. -/
def resolvePath (cwd p : List String) : List String :=
  p.foldl resolveStep cwd

/-- Target path used by `writeFileChange` (src/index.js line 410):
`path.resolve(process.cwd(), change.path)` with no containment check. -/
def writeFileChangeTarget (cwd changePath : List String) : List String :=
  resolvePath cwd changePath

/-- Target path used by `removeFile` (src/index.js line 427):
`path.resolve(process.cwd(), pathToRemove)` with no containment check. -/
def removeFileTarget (cwd p : List String) : List String :=
  resolvePath cwd p

/-- A target is inside the working tree root iff the root's segments are a
prefix of the target's segments. -/
def insideWorkTree (root target : List String) : Bool :=
  root.isPrefixOf target

/-- Node's `fs.rm(target, { force, recursive })` on a filesystem modelled
as the list of existing paths: without `force` a missing target fails
with `ENOENT`; without `recursive` a target that has descendants fails;
otherwise the target and all its descendants are removed. -/
def fsRm (fs : List (List String)) (target : List String)
    (force recursive : Bool) : Except String (List (List String)) :=
  let hits := fs.filter (fun q => target.isPrefixOf q)
  if hits.isEmpty then
    if force then .ok fs else .error "ENOENT"
  else if !recursive && hits.any (fun q => q != target) then
    .error "ERR_FS_EISDIR"
  else
    .ok (fs.filter (fun q => !(target.isPrefixOf q)))

/-- `removeFile` (src/index.js lines 426-429): resolve against the current
directory and `fs.rm` with `force: true, recursive: true`. -/
def removeFile (fs : List (List String)) (cwd p : List String) :
    Except String (List (List String)) :=
  fsRm fs (resolvePath cwd p) true true

/-- Whether an `Except` result is a success. -/
def exceptOk : Except String (List (List String)) → Bool
  | .ok _ => true
  | .error _ => false

/-! ### Endpoint resolution (`resolveAgentUrl`) -/

/-- The payload fields `resolveAgentUrl` (src/index.js lines 205-230)
inspects, in order. -/
structure AgentPayload where
  agentUrl : Option String
  agent_url : Option String
  agent_endpoint : Option String
  agentEndpoint : Option String
  url : Option String
  endpoint : Option String
deriving DecidableEq

/-- The candidate list built by `resolveAgentUrl`: the six aliases in
source order, with falsy entries dropped (`.filter(Boolean)`). -/
def payloadCandidates (p : AgentPayload) : List String :=
  [p.agentUrl, p.agent_url, p.agent_endpoint,
   p.agentEndpoint, p.url, p.endpoint].filterMap truthyStr

/-- `resolveAgentUrl(payload, inputBaseUrl)`: a truthy payload alias wins;
otherwise `inputBaseUrl || PIXELFRAME_BASE_URL || ''`; an empty base
yields `null`; an invalid base makes `new URL('/agent/run', base)` throw.
URL construction itself is abstracted into `joinAgentRun`, which returns
`none` exactly when the base URL is invalid. -/
def resolveAgentUrl (joinAgentRun : String → Option String)
    (payload : Option AgentPayload) (inputBaseUrl envBaseUrl : String) :
    Except String (Option String) :=
  let fromPayload : Option String :=
    match payload with
    | some p => (payloadCandidates p).head?
    | none => none
  match fromPayload with
  | some u => .ok (some u)
  | none =>
    let base := if inputBaseUrl ≠ "" then inputBaseUrl else envBaseUrl
    if base = "" then .ok none
    else
      match joinAgentRun base with
      | some u => .ok (some u)
      | none => .error "Invalid PixelFrame base URL"

/-! ### The repository plan data model -/

/-- `plan.commit` sub-object as read by `maybeApplyRepositoryPlan`. -/
structure CommitSpec where
  branch : Option String
  base : Option String
  message : Option String
  authorName : Option String
  authorEmail : Option String
  force : Bool
deriving DecidableEq

/-- The empty object `{}` used when `plan.commit` is absent. -/
def CommitSpec.empty : CommitSpec :=
  ⟨none, none, none, none, none, false⟩

/-- `pullRequestSpec.reviewers`: either a bare array (interpreted as
users) or a `{users, teams}` object. -/
inductive ReviewersSpec where
  | bare (users : List String)
  | structured (users : Option (List String)) (teams : Option (List String))
deriving DecidableEq

/-- `plan.pullRequest` sub-object. -/
structure PRSpec where
  title : Option String
  body : Option String
  draft : Bool
  number : Option Nat
  prNumber : Option Nat
  reviewers : Option ReviewersSpec
  merge : Bool
  mergeStrategy : Option String
deriving DecidableEq

/-- The empty object `{}` used when `plan.pullRequest` is absent. -/
def PRSpec.empty : PRSpec :=
  ⟨none, none, false, none, none, none, false, none⟩

/-- The fields of an agent plan that drive `maybeApplyRepositoryPlan`.
File write/delete entries are applied through the separately modelled
`writeFileChangeTarget`/`removeFile`; the driver trace records their
application as a single `applyFileOps` step. -/
structure Plan where
  repositoryName : Option String
  commit : Option CommitSpec
  branch : Option String
  branchName : Option String
  baseBranch : Option String
  commitMessage : Option String
  pullRequest : Option PRSpec
  merge : Bool
  force : Bool
deriving DecidableEq

/-- A plan with every field absent. -/
def Plan.empty : Plan :=
  ⟨none, none, none, none, none, none, none, false, false⟩

/-! ### Poll responses (`pollAgentStatus` input) -/

/-- One per-agent entry of `data.pipeline` (`coder` / `reviewer`): an
object whose `status` field may itself be absent. -/
structure AgentStatusObj where
  status : Option String
deriving DecidableEq

/-- The optional `data.pipeline` sub-object of a status response. -/
structure PipelineObj where
  coder : Option AgentStatusObj
  reviewer : Option AgentStatusObj
deriving DecidableEq

/-- A parsed JSON body as consumed by the poller and the orchestrator,
without the nested `result` field.  `selfPlan` is the body itself viewed
as a plan (the orchestrator uses `agentResponse?.plan || agentResponse`);
`rawWrapper` marks the `{ raw }` wrapper built for non-JSON bodies. -/
structure JsonLeaf where
  status : Option String
  runId : Option String
  pipeline : Option PipelineObj
  plan : Option Plan
  selfPlan : Plan
  rawWrapper : Bool
deriving DecidableEq

/-- A parsed JSON body including the optional nested `result` object
(used only by the poller's `failed` branch: `data.result || data`). -/
structure JsonBody extends JsonLeaf where
  resultField : Option JsonLeaf
deriving DecidableEq

/-- A leaf with every field absent. -/
def JsonLeaf.empty : JsonLeaf :=
  ⟨none, none, none, none, Plan.empty, false⟩

/-- What one `fetch` of the status URL produced: the HTTP status code and
the body's parse result (`none` = `JSON.parse` threw). -/
structure PollResponse where
  status : Nat
  body : Option JsonBody
deriving DecidableEq

/-- `response.ok` of the Fetch API: status in the range 200-299. -/
def responseOk (status : Nat) : Bool :=
  200 ≤ status && status < 300

/-! ### The poll loop (`pollAgentStatus`, src/index.js lines 239-331) -/

/-- Observable events of one polling run: the fixed-interval sleep, the
status request of a given attempt, a per-agent status notification
(`logAgentStatus`), and a warning. -/
inductive PollEvent where
  | sleep
  | request (attempt : Nat)
  | notify (agent : String) (status : Option String)
  | warn (message : String)
deriving DecidableEq

/-- The errors `pollAgentStatus` can throw. -/
inductive PollError where
  | notFound (runId : String)
  | expired (runId : String)
  | httpError (runId : String) (status : Nat)
  | timedOut (runId : String)
deriving DecidableEq

/-- How a polling run ends: `completed` returns the full payload,
`failedData` returns `data.result || data`, `fatal` is a thrown error. -/
inductive PollOutcome where
  | completed (data : JsonBody)
  | failedData (data : JsonLeaf)
  | fatal (e : PollError)
deriving DecidableEq

/-- The `lastLoggedStatus` map: last-seen status per tracked agent.
`none` is both "never seen" and "seen with an absent status", exactly as
in the JavaScript object whose fields start out `undefined`. -/
structure LastLogged where
  coder : Option String
  reviewer : Option String
deriving DecidableEq

/-- Dedup step for one tracked agent: if the agent entry is present and
its status differs from the last-seen value, emit one notification and
update the last-seen value (src/index.js lines 290-305). -/
def processAgentField (agentName : String) (field : Option AgentStatusObj)
    (lastSeen : Option String) : Option String × List PollEvent :=
  match field with
  | none => (lastSeen, [])
  | some st =>
    if st.status = lastSeen then (lastSeen, [])
    else (st.status, [.notify agentName st.status])

/-- Per-poll processing of the optional `data.pipeline` structure: the
`coder` entry is handled first, then `reviewer`; the two last-seen fields
are independent. -/
def processPipeline (last : LastLogged) (pipeline : Option PipelineObj) :
    LastLogged × List PollEvent :=
  match pipeline with
  | none => (last, [])
  | some pl =>
    let c := processAgentField "coder" pl.coder last.coder
    let r := processAgentField "reviewer" pl.reviewer last.reviewer
    (⟨c.1, r.1⟩, c.2 ++ r.2)

/-- One iteration of the poll loop body: sleep, request, then either a
terminal result (`Sum.inl`) or the events plus updated dedup state of a
continuing iteration (`Sum.inr`).  Mirrors src/index.js lines 250-327:
parse failure warns and continues; non-2xx throws (404 not-found, 410
expired, otherwise a generic status-check error); otherwise the pipeline
statuses are processed and `completed`/`failed` terminate while
`processing` and unknown statuses continue. -/
def pollStep (runId : String) (a : Nat) (r : PollResponse)
    (last : LastLogged) :
    (List PollEvent × PollOutcome) ⊕ (List PollEvent × LastLogged) :=
  match r.body with
  | none =>
    .inr ([.sleep, .request a, .warn "status response is not valid JSON"],
      last)
  | some data =>
    if responseOk r.status = false then
      if r.status = 404 then
        .inl ([.sleep, .request a], .fatal (.notFound runId))
      else if r.status = 410 then
        .inl ([.sleep, .request a], .fatal (.expired runId))
      else
        .inl ([.sleep, .request a], .fatal (.httpError runId r.status))
    else
      let pp := processPipeline last data.pipeline
      if data.status = some "completed" then
        .inl ([.sleep, .request a] ++ pp.2, .completed data)
      else if data.status = some "failed" then
        .inl ([.sleep, .request a] ++ pp.2 ++ [.warn "job failed"],
          .failedData (data.resultField.getD data.toJsonLeaf))
      else if data.status = some "processing" then
        .inr ([.sleep, .request a] ++ pp.2, pp.1)
      else
        .inr ([.sleep, .request a] ++ pp.2 ++ [.warn "unknown status"],
          pp.1)

/-- The poll loop from attempt `a` with `fuel` remaining attempts:
exhausting the attempts throws the timeout error naming the job id. -/
def pollFrom (runId : String) (responses : Nat → PollResponse) :
    Nat → Nat → LastLogged → List PollEvent × PollOutcome
  | _, 0, _ => ([], .fatal (.timedOut runId))
  | a, fuel + 1, last =>
    match pollStep runId a (responses a) last with
    | .inl (evs, out) => (evs, out)
    | .inr (evs, next) =>
      let rest := pollFrom runId responses (a + 1) fuel next
      (evs ++ rest.1, rest.2)

/-- `pollAgentStatus(baseUrl, apiKey, runId)`: `maxAttempts = 120`,
`lastLoggedStatus` reset to the empty map before the loop.  The status
URL string and authorization header carry no control flow and are not
modelled. -/
def pollAgentStatus (runId : String) (responses : Nat → PollResponse) :
    List PollEvent × PollOutcome :=
  pollFrom runId responses 0 120 ⟨none, none⟩

/-- Events and final dedup state of `n` consecutive *continuing*
iterations of the poll loop, starting at attempt `a` (terminal steps,
which cannot occur under the hypotheses it is used with, contribute their
events and leave the state unchanged). -/
def pollSegment (runId : String) (responses : Nat → PollResponse) :
    Nat → LastLogged → Nat → List PollEvent × LastLogged
  | _, last, 0 => ([], last)
  | a, last, n + 1 =>
    match pollStep runId a (responses a) last with
    | .inl (evs, _) => (evs, last)
    | .inr (evs, next) =>
      let rest := pollSegment runId responses (a + 1) next n
      (evs ++ rest.1, rest.2)

/-- Whether an event is a status request. -/
def isReq : PollEvent → Bool
  | .request _ => true
  | _ => false

/-- Number of status requests in a trace (= poll attempts consumed). -/
def countRequests (l : List PollEvent) : Nat :=
  l.countP isReq

/-- Whether an event is a notification for the given tracked agent. -/
def isNotifyOf (agent : String) : PollEvent → Bool
  | .notify a _ => a == agent
  | _ => false

/-- Number of notifications for the given tracked agent in a trace. -/
def countNotify (agent : String) (l : List PollEvent) : Nat :=
  l.countP (isNotifyOf agent)

/-- Scanner for the claim that every status request is immediately
preceded by an interval sleep: walks the trace remembering the previous
event, and demands that the predecessor of every request be `sleep`
(a request as the very first event has no predecessor and fails). -/
def chkSleepReq : Option PollEvent → List PollEvent → Bool
  | _, [] => true
  | prev, e :: rest =>
    (!isReq e || decide (prev = some PollEvent.sleep)) &&
      chkSleepReq (some e) rest

/-- A poll response that continues the loop whatever the dedup state:
either the body failed to parse, or it parsed with a 2xx status and a
non-terminal job status. -/
def continuesB (r : PollResponse) : Bool :=
  match r.body with
  | none => true
  | some d =>
    responseOk r.status && !(d.status == some "completed") &&
      !(d.status == some "failed")

/-- A successfully parsed 2xx response whose job status is `processing`. -/
def processingB (r : PollResponse) : Bool :=
  match r.body with
  | none => false
  | some d => responseOk r.status && d.status == some "processing"

/-- A successfully parsed, non-terminal 2xx response whose pipeline
reports coder status `s`. -/
def coderRepeatB (s : String) (r : PollResponse) : Bool :=
  match r.body with
  | none => false
  | some d =>
    responseOk r.status && !(d.status == some "completed") &&
      !(d.status == some "failed") &&
      (match d.pipeline with
       | none => false
       | some pl =>
         match pl.coder with
         | none => false
         | some c => c.status == some s)

/-- A successfully parsed, non-terminal 2xx response whose pipeline
reports reviewer status `s`. -/
def reviewerRepeatB (s : String) (r : PollResponse) : Bool :=
  match r.body with
  | none => false
  | some d =>
    responseOk r.status && !(d.status == some "completed") &&
      !(d.status == some "failed") &&
      (match d.pipeline with
       | none => false
       | some pl =>
         match pl.reviewer with
         | none => false
         | some c => c.status == some s)

/-! ### The agent invoker (`callAgent`, src/index.js lines 333-382) -/

/-- What the initial `POST` to the agent endpoint produced. -/
structure AgentHttp where
  status : Nat
  raw : String
  parsed : Option JsonBody
deriving DecidableEq

/-- The `{ raw }` wrapper object built when a non-empty response body is
not valid JSON. -/
def rawWrapperBody : JsonBody :=
  { status := none, runId := none, pipeline := none, plan := none,
    selfPlan := Plan.empty, rawWrapper := true, resultField := none }

/-- The user-visible message of a poller error. -/
def fatalMessage : PollError → String
  | .notFound r => s!"Job {r} not found (404)"
  | .expired r => s!"Job {r} expired (410)"
  | .httpError _ s => s!"Status check failed ({s})"
  | .timedOut r => s!"Job {r} timed out after 10 minutes"

/-- `callAgent`: an empty body leaves `data` undefined; a non-empty body
that fails to parse becomes the raw wrapper; a non-2xx response throws;
a parsed body with status `processing` and a truthy `runId` delegates to
the poller; otherwise the parsed body is returned as-is. -/
def callAgent (resp : AgentHttp) (pollResponses : Nat → PollResponse) :
    Except String (Option JsonLeaf) :=
  let data : Option JsonBody :=
    if resp.raw = "" then none
    else some (resp.parsed.getD rawWrapperBody)
  if responseOk resp.status = false then
    .error "PixelFrame API request failed"
  else
    match data with
    | none => .ok none
    | some d =>
      if d.status = some "processing" then
        match truthyStr d.runId with
        | some rid =>
          match (pollAgentStatus rid pollResponses).2 with
          | .completed d2 => .ok (some d2.toJsonLeaf)
          | .failedData l => .ok (some l)
          | .fatal e => .error (fatalMessage e)
        | none => .ok (some d.toJsonLeaf)
      else .ok (some d.toJsonLeaf)

/-! ### Git and pull-request driver (src/index.js lines 459-701) -/

/-- Observable effects of `maybeApplyRepositoryPlan` and its callees:
each spawned git command group, each GitHub API call, and the warnings
and notices that gate them. -/
inductive RepoEffect where
  | warnNoRepo
  | noticeNoBranch
  | warnNoToken
  | configureUser (name email : String)
  | prepareBranch (branch baseRef : String)
  | applyFileOps
  | stageAll
  | noticeNoStagedChanges
  | commit (message : String)
  | pushBranch (branch : String) (forceWithLease : Bool)
  | noticeNoChanges
  | apiUpdatePullRequest (number : Nat)
  | apiCreatePullRequest (head base : String)
  | apiRequestReviewers (number : Nat) (users teams : List String)
  | warnUnsupportedMergeStrategy (strategy : String)
  | apiMergePullRequest (number : Nat) (method : String)
  | noticeMerged (number : Nat)
deriving DecidableEq

/-- Environment consumed by the driver: the repository/ref environment
variables, the outcome of the `git diff --cached --quiet` probe (true
when nothing is staged), and the `number` field of the create-PR API
response. -/
structure RepoEnv where
  githubRepository : Option String
  githubBaseRef : Option String
  githubRefName : Option String
  gitCommitterName : Option String
  gitCommitterEmail : Option String
  stagedDiffEmpty : Bool
  prApiNumber : Option Nat
deriving DecidableEq

/-- Split a character list at every occurrence of the separator, keeping
empty pieces, with the semantics of JavaScript `String.split`. -/
def splitChar (c : Char) : List Char → List (List Char)
  | [] => [[]]
  | x :: xs =>
    let r := splitChar c xs
    if x = c then [] :: r
    else
      match r with
      | [] => [[x]]
      | y :: ys => (x :: y) :: ys

/-- JavaScript `s.split('/')` on a string. -/
def splitSlash (s : String) : List String :=
  (splitChar '/' s.data).map fun l => ⟨l⟩

/-- `parseRepository` (src/index.js lines 179-188): split on `/`, take
the first two parts, require both nonempty. -/
def parseRepository (repoString : Option String) :
    Option (String × String) :=
  match truthyStr repoString with
  | none => none
  | some s =>
    match splitSlash s with
    | owner :: name :: _ =>
      if owner = "" ∨ name = "" then none else some (owner, name)
    | _ => none

/-- `ensureGitUserConfigured`: author name and email with environment and
literal fallbacks. -/
def ensureGitUserConfigured (authorName authorEmail : Option String)
    (env : RepoEnv) : RepoEffect :=
  .configureUser
    ((jsOr authorName env.gitCommitterName).getD "pixelframe-agent")
    ((jsOr authorEmail env.gitCommitterEmail).getD "pixelframe@git.local")

/-- `prepareBranch`: fetch/checkout base/pull/checkout -B, with the base
ref resolved as explicit base, else `GITHUB_BASE_REF`, else
`GITHUB_REF_NAME`, else `main`. -/
def prepareBranchEffect (branchName : String) (baseBranch : Option String)
    (env : RepoEnv) : RepoEffect :=
  .prepareBranch branchName
    ((jsOr baseBranch (jsOr env.githubBaseRef env.githubRefName)).getD "main")

/-- `stageAndCommit` (src/index.js lines 496-507): stage everything; when
the cached diff is empty report and skip the commit (`false`), otherwise
commit (`true`). -/
def stageAndCommit (message : String) (env : RepoEnv) :
    List RepoEffect × Bool :=
  if env.stagedDiffEmpty then
    ([.stageAll, .noticeNoStagedChanges], false)
  else
    ([.stageAll, .commit message], true)

/-- `createOrUpdatePullRequest` (src/index.js lines 556-597): no-op when
repository, branch or token is missing; with a truthy spec number PATCH
and return it; otherwise POST a new PR and return the API's number. -/
def createOrUpdatePullRequest (repo : Option (String × String))
    (branchName : String) (baseBranch : Option String) (prSpec : PRSpec)
    (token : String) (env : RepoEnv) : List RepoEffect × Option Nat :=
  if repo = none ∨ branchName = "" ∨ token = "" then ([], none)
  else
    let base := (truthyStr baseBranch).getD "main"
    match jsOrN prSpec.number prSpec.prNumber with
    | some n => ([.apiUpdatePullRequest n], some n)
    | none => ([.apiCreatePullRequest branchName base], truthyN env.prApiNumber)

/-- The users list extracted from a reviewers value.  (When a structured
object lacks a `users` array the JavaScript falls back to the object
itself; no claim exercises that corner and it is modelled as the empty
list.) -/
def reviewerUsers : ReviewersSpec → List String
  | .bare l => l
  | .structured u _ => u.getD []

/-- The teams list extracted from a reviewers value. -/
def reviewerTeams : ReviewersSpec → List String
  | .bare _ => []
  | .structured _ t => t.getD []

/-- `requestReviewsIfNeeded` (src/index.js lines 599-620). -/
def requestReviewsIfNeeded (repo : Option (String × String))
    (prNumber : Option Nat) (reviewers : ReviewersSpec) (token : String) :
    List RepoEffect :=
  match repo, truthyN prNumber with
  | some _, some n =>
    if token = "" then []
    else
      let users := reviewerUsers reviewers
      let teams := reviewerTeams reviewers
      if users.isEmpty && teams.isEmpty then []
      else [.apiRequestReviewers n users teams]
  | _, _ => []

/-- ASCII lower-casing of one character, as `toLowerCase` acts on the
ASCII strategy names involved. -/
def lowerChar (c : Char) : Char :=
  if 65 ≤ c.toNat ∧ c.toNat ≤ 90 then Char.ofNat (c.toNat + 32) else c

/-- `s.toLowerCase()` on a string. -/
def lowerString (s : String) : String :=
  ⟨s.data.map lowerChar⟩

/-- `maybeMergePullRequest` (src/index.js lines 622-642): no-op when any
of repository, PR number, token or strategy is missing; lower-case the
strategy; an unsupported strategy warns and skips; a supported one PUTs
the merge. -/
def maybeMergePullRequest (repo : Option (String × String))
    (prNumber : Option Nat) (mergeStrategy : Option String)
    (token : String) : List RepoEffect :=
  match repo, truthyN prNumber, truthyStr mergeStrategy with
  | some _, some n, some strat =>
    if token = "" then []
    else
      let method := lowerString strat
      if method = "merge" ∨ method = "squash" ∨ method = "rebase" then
        [.apiMergePullRequest n method, .noticeMerged n]
      else
        [.warnUnsupportedMergeStrategy strat]
  | _, _, _ => []

/-- `maybeApplyRepositoryPlan` (src/index.js lines 648-701), as an effect
trace plus the `{prNumber, prUrl}` result. -/
def maybeApplyRepositoryPlan (plan : Option Plan) (token : String)
    (mergeStrategy : Option String) (env : RepoEnv) :
    List RepoEffect × (Option Nat × Option String) :=
  match plan with
  | none => ([], (none, none))
  | some plan =>
    let repo := parseRepository (jsOr plan.repositoryName env.githubRepository)
    let repoWarn : List RepoEffect :=
      if repo = none then [.warnNoRepo] else []
    let commit := plan.commit.getD CommitSpec.empty
    match jsOr commit.branch (jsOr plan.branch plan.branchName) with
    | none => (repoWarn ++ [.noticeNoBranch], (none, none))
    | some branchName =>
      if token = "" then (repoWarn ++ [.warnNoToken], (none, none))
      else
        let e1 := ensureGitUserConfigured commit.authorName commit.authorEmail env
        let e2 := prepareBranchEffect branchName (jsOr commit.base plan.baseBranch) env
        let message := (jsOr commit.message plan.commitMessage).getD
          "PixelFrame agent updates"
        let staged := stageAndCommit message env
        let effsPre := repoWarn ++ [e1, e2, .applyFileOps] ++ staged.1
        if staged.2 = false then
          (effsPre ++ [.noticeNoChanges], (none, none))
        else
          let pushEff := RepoEffect.pushBranch branchName
            (commit.force || plan.force)
          let prSpec := plan.pullRequest.getD PRSpec.empty
          let created := createOrUpdatePullRequest repo branchName
            (jsOr commit.base plan.baseBranch) prSpec token env
          let prNumber := created.2
          let prUrl : Option String :=
            match truthyN prNumber, repo with
            | some n, some (owner, name) =>
              some ("https://github.com/" ++ owner ++ "/" ++ name ++
                "/pull/" ++ toString n)
            | _, _ => none
          let reviewEffs :=
            match truthyN prNumber, prSpec.reviewers with
            | some _, some rev => requestReviewsIfNeeded repo prNumber rev token
            | _, _ => []
          let mergeEffs :=
            if prSpec.merge || plan.merge then
              maybeMergePullRequest repo prNumber
                (jsOr mergeStrategy prSpec.mergeStrategy) token
            else []
          (effsPre ++ [pushEff] ++ created.1 ++ reviewEffs ++ mergeEffs,
            (prNumber, prUrl))

/-- Effects that commit, push, or talk to the pull-request API. -/
def isCommitPushOrApiCall : RepoEffect → Bool
  | .commit _ => true
  | .pushBranch _ _ => true
  | .apiUpdatePullRequest _ => true
  | .apiCreatePullRequest _ _ => true
  | .apiRequestReviewers _ _ _ => true
  | .apiMergePullRequest _ _ => true
  | _ => false

/-- Effects that PUT the merge endpoint. -/
def isMergeApiCall : RepoEffect → Bool
  | .apiMergePullRequest _ _ => true
  | _ => false

/-! ### The orchestrator (`run`, src/index.js lines 707-776) -/

/-- Observable events of one orchestrator run: the agent POST, each
published output, and each repository effect. -/
inductive RunEvent where
  | agentCall (url : String)
  | output (name value : String)
  | repo (e : RepoEffect)
deriving DecidableEq

/-- Inputs of one orchestrator run after the payload file has been read
and parsed (input parsing is a thin wrapper outside the modelled core). -/
structure RunInputs where
  payload : Option AgentPayload
  pixelframeBaseUrl : String
  envBaseUrl : String
  joinAgentRun : String → Option String
  token : String
  mergeStrategy : String
  agentResp : AgentHttp
  pollResponses : Nat → PollResponse
  repoEnv : RepoEnv

/-- `run`: resolve the endpoint (failing before any remote call when it
resolves to nothing), call the agent, publish `run-id`/`status` when
truthy, apply the repository plan (`agentResponse?.plan ||
agentResponse`), and publish `pr-number`/`pr-url` when known.  The
returned flag is false exactly when the top-level catch fired. -/
def runModel (inp : RunInputs) : List RunEvent × Bool :=
  match resolveAgentUrl inp.joinAgentRun inp.payload inp.pixelframeBaseUrl
      inp.envBaseUrl with
  | .error _ => ([], false)
  | .ok none => ([], false)
  | .ok (some url) =>
    match callAgent inp.agentResp inp.pollResponses with
    | .error _ => ([.agentCall url], false)
    | .ok data =>
      let outs1 : List RunEvent :=
        match data with
        | none => []
        | some d =>
          (match truthyStr d.runId with
           | some r => [.output "run-id" r]
           | none => []) ++
          (match truthyStr d.status with
           | some s => [.output "status" s]
           | none => [])
      let planArg : Option Plan :=
        match data with
        | none => none
        | some d => some (d.plan.getD d.selfPlan)
      let applied := maybeApplyRepositoryPlan planArg inp.token
        (truthyStr (some inp.mergeStrategy)) inp.repoEnv
      let outs2 : List RunEvent :=
        (match truthyN applied.2.1 with
         | some n => [.output "pr-number" (toString n)]
         | none => []) ++
        (match truthyStr applied.2.2 with
         | some u => [.output "pr-url" u]
         | none => [])
      ([.agentCall url] ++ outs1 ++ applied.1.map .repo ++ outs2, true)

end PixelFrame
namespace PixelFrame

/-- Poll responses that always answer HTTP 404 with a body that is not
valid JSON. -/
def c2Responses : Nat → PollResponse := fun _ => ⟨404, none⟩

/-- A parsed JSON body with every field absent. -/
def emptyBody : JsonBody :=
  { status := none, runId := none, pipeline := none, plan := none,
    selfPlan := Plan.empty, rawWrapper := false, resultField := none }

/-- Poll responses that always answer HTTP 404 with a parseable body. -/
def c2NotFoundResponses : Nat → PollResponse := fun _ => ⟨404, some emptyBody⟩

/-- A parsed body reporting job status `processing` and no pipeline. -/
def processingBody : JsonBody :=
  { status := some "processing", runId := none, pipeline := none,
    plan := none, selfPlan := Plan.empty, rawWrapper := false,
    resultField := none }

/-- Poll responses that always report `processing`. -/
def c3Responses : Nat → PollResponse := fun _ => ⟨200, some processingBody⟩

/-- A pipeline whose coder reports `generating` and whose reviewer
reports `validating`. -/
def c4Pipeline : PipelineObj :=
  ⟨some ⟨some "generating"⟩, some ⟨some "validating"⟩⟩

/-- A `processing` body carrying the repeated pipeline statuses. -/
def c4Body : JsonBody :=
  { status := some "processing", runId := none, pipeline := some c4Pipeline,
    plan := none, selfPlan := Plan.empty, rawWrapper := false,
    resultField := none }

/-- Poll responses repeating the same per-agent statuses every time. -/
def c4Responses : Nat → PollResponse := fun _ => ⟨200, some c4Body⟩

end PixelFrame
namespace PixelFrame

/-- A payload whose `agent_url` alias is set and whose `endpoint` alias
is the falsy empty string. -/
def c7Payload : AgentPayload :=
  ⟨none, some "https://pf.example/hook", none, none, none, some ""⟩

/-- Run inputs with no payload endpoint and no base URL anywhere. -/
def c7Inputs : RunInputs :=
  { payload := none, pixelframeBaseUrl := "", envBaseUrl := "",
    joinAgentRun := fun _ => none, token := "", mergeStrategy := "",
    agentResp := ⟨200, "", none⟩, pollResponses := fun _ => ⟨200, none⟩,
    repoEnv := ⟨none, none, none, none, none, true, none⟩ }

/-- A payload carrying only the `agentUrl` alias. -/
def c9Payload : AgentPayload :=
  ⟨some "https://x.example/agent/run", none, none, none, none, none⟩

/-- Run inputs whose agent call returns a 2xx response with an empty
body. -/
def c9Inputs : RunInputs :=
  { payload := some c9Payload, pixelframeBaseUrl := "", envBaseUrl := "",
    joinAgentRun := fun _ => none, token := "", mergeStrategy := "",
    agentResp := ⟨200, "", none⟩, pollResponses := fun _ => ⟨200, none⟩,
    repoEnv := ⟨none, none, none, none, none, true, none⟩ }

/-- A commit spec naming only the branch `pf-branch`. -/
def c5Commit : CommitSpec :=
  { branch := some "pf-branch", base := none, message := none,
    authorName := none, authorEmail := none, force := false }

/-- A plan that names a branch but whose application stages nothing. -/
def c5Plan : Plan :=
  { repositoryName := none, commit := some c5Commit,
    branch := none, branchName := none, baseBranch := none,
    commitMessage := none, pullRequest := none, merge := false,
    force := false }

/-- Environment in which the staged diff is empty. -/
def c5Env : RepoEnv := ⟨some "acme/widgets", none, none, none, none, true, none⟩

/-- A pull-request spec requesting a merge with no strategy of its own. -/
def c8PR : PRSpec :=
  { title := none, body := none, draft := false, number := none,
    prNumber := none, reviewers := none, merge := true,
    mergeStrategy := none }

/-- A commit spec naming only the branch `feat-1`. -/
def c8Commit : CommitSpec :=
  { branch := some "feat-1", base := none, message := none,
    authorName := none, authorEmail := none, force := false }

/-- A plan that creates a PR on branch `feat-1` and requests a merge. -/
def c8Plan : Plan :=
  { repositoryName := some "acme/widgets", commit := some c8Commit,
    branch := none, branchName := none, baseBranch := none,
    commitMessage := none, pullRequest := some c8PR, merge := false,
    force := false }

/-- Environment with staged changes and a create-PR API answering 7. -/
def c8Env : RepoEnv := ⟨none, none, none, none, none, false, some 7⟩

end PixelFrame
namespace PixelFrame

theorem truthyStr_eq_some {o : Option String} {s : String}
    (h : truthyStr o = some s) : s ≠ "" ∧ truthyStr (some s) = some s := by
  cases o with
  | none => simp [truthyStr] at h
  | some t =>
    by_cases ht : t = ""
    · simp [truthyStr, ht] at h
    · simp [truthyStr, ht] at h
      subst h
      exact ⟨ht, by simp [truthyStr, ht]⟩

theorem jsOr_eq_some {a b : Option String} {s : String}
    (h : jsOr a b = some s) : s ≠ "" ∧ truthyStr (some s) = some s := by
  unfold jsOr at h
  split at h
  · rename_i v hv
    obtain rfl : v = s := by simpa using h
    exact truthyStr_eq_some hv
  · exact truthyStr_eq_some h

theorem truthyN_eq_some {o : Option Nat} {n : Nat}
    (h : truthyN o = some n) : n ≠ 0 ∧ truthyN (some n) = some n := by
  cases o with
  | none => simp [truthyN] at h
  | some m =>
    by_cases hm : m = 0
    · simp [truthyN, hm] at h
    · simp [truthyN, hm] at h
      subst h
      exact ⟨hm, by simp [truthyN, hm]⟩

theorem processAgentField_fst_some (name : String) (st : AgentStatusObj)
    (ls : Option String) :
    (processAgentField name (some st) ls).1 = st.status := by
  simp only [processAgentField]
  split
  · rename_i h; exact h.symm
  · rfl

theorem processAgentField_events (name : String) (f : Option AgentStatusObj)
    (ls : Option String) :
    (processAgentField name f ls).2 = [] ∨
      ∃ st, (processAgentField name f ls).2 = [.notify name st] := by
  cases f with
  | none => exact Or.inl rfl
  | some st =>
    simp only [processAgentField]
    split
    · exact Or.inl rfl
    · exact Or.inr ⟨st.status, rfl⟩

theorem countNotify_processAgentField_other (agent name : String)
    (h : name ≠ agent) (f : Option AgentStatusObj) (ls : Option String) :
    countNotify agent (processAgentField name f ls).2 = 0 := by
  rcases processAgentField_events name f ls with h1 | ⟨st, h1⟩ <;> rw [h1]
  · rfl
  · simp [countNotify, List.countP_cons, isNotifyOf, h]

theorem countNotify_processAgentField_self (name : String)
    (st : AgentStatusObj) (ls : Option String) :
    countNotify name (processAgentField name (some st) ls).2 =
      if st.status = ls then 0 else 1 := by
  simp only [processAgentField]
  split
  · rename_i h; simp [h, countNotify]
  · rename_i h; simp [h, countNotify, List.countP_cons, isNotifyOf]

theorem countNotify_append (agent : String) (l1 l2 : List PollEvent) :
    countNotify agent (l1 ++ l2) =
      countNotify agent l1 + countNotify agent l2 :=
  List.countP_append _ _ _

theorem countRequests_append (l1 l2 : List PollEvent) :
    countRequests (l1 ++ l2) = countRequests l1 + countRequests l2 :=
  List.countP_append _ _ _

theorem processPipeline_noReq (last : LastLogged) (p : Option PipelineObj) :
    ∀ e ∈ (processPipeline last p).2, isReq e = false := by
  cases p with
  | none => intro e he; simp [processPipeline] at he
  | some pl =>
    intro e he
    simp only [processPipeline, List.mem_append] at he
    have key : ∀ (name : String) (f : Option AgentStatusObj) (ls : Option String),
        e ∈ (processAgentField name f ls).2 → isReq e = false := by
      intro name f ls hm
      rcases processAgentField_events name f ls with h1 | ⟨st, h1⟩ <;> rw [h1] at hm
      · simp at hm
      · simp at hm; subst hm; rfl
    rcases he with he | he
    · exact key _ _ _ he
    · exact key _ _ _ he

theorem countRequests_processPipeline (last : LastLogged)
    (p : Option PipelineObj) :
    countRequests (processPipeline last p).2 = 0 := by
  rw [countRequests, List.countP_eq_zero]
  intro e he
  simpa using processPipeline_noReq last p e he

theorem processPipeline_coder (last : LastLogged) (pl : PipelineObj)
    (c : AgentStatusObj) (s : String) (hc : pl.coder = some c)
    (hs : c.status = some s) :
    countNotify "coder" (processPipeline last (some pl)).2 =
      (if some s = last.coder then 0 else 1) ∧
    (processPipeline last (some pl)).1.coder = some s := by
  constructor
  · simp only [processPipeline, countNotify_append, hc]
    rw [countNotify_processAgentField_self,
      countNotify_processAgentField_other "coder" "reviewer" (by decide)]
    rw [hs]
    simp
  · simp only [processPipeline, hc]
    rw [processAgentField_fst_some, hs]

theorem processPipeline_reviewer (last : LastLogged) (pl : PipelineObj)
    (c : AgentStatusObj) (s : String) (hc : pl.reviewer = some c)
    (hs : c.status = some s) :
    countNotify "reviewer" (processPipeline last (some pl)).2 =
      (if some s = last.reviewer then 0 else 1) ∧
    (processPipeline last (some pl)).1.reviewer = some s := by
  constructor
  · simp only [processPipeline, countNotify_append, hc]
    rw [countNotify_processAgentField_self,
      countNotify_processAgentField_other "reviewer" "coder" (by decide)]
    rw [hs]
    simp
  · simp only [processPipeline, hc]
    rw [processAgentField_fst_some, hs]

end PixelFrame
namespace PixelFrame

theorem pollStep_processing (runId : String) (a : Nat) (r : PollResponse)
    (last : LastLogged) (h : processingB r = true) :
    ∃ d, r.body = some d ∧
      pollStep runId a r last =
        .inr ([.sleep, .request a] ++ (processPipeline last d.pipeline).2,
          (processPipeline last d.pipeline).1) := by
  cases hb : r.body with
  | none => simp [processingB, hb] at h
  | some d =>
    refine ⟨d, rfl, ?_⟩
    have h' : responseOk r.status = true ∧ d.status = some "processing" := by
      simp only [processingB, hb, Bool.and_eq_true, beq_iff_eq] at h
      exact h
    simp [pollStep, hb, h'.1, h'.2]

theorem pollStep_continue_of_parsed (runId : String) (a : Nat)
    (r : PollResponse) (last : LastLogged) (d : JsonBody)
    (hb : r.body = some d) (hc : continuesB r = true) :
    ∃ tail, (tail = [] ∨ tail = [PollEvent.warn "unknown status"]) ∧
      pollStep runId a r last =
        .inr (([PollEvent.sleep, .request a] ++
            (processPipeline last d.pipeline).2) ++ tail,
          (processPipeline last d.pipeline).1) := by
  have h' : responseOk r.status = true ∧ d.status ≠ some "completed" ∧
      d.status ≠ some "failed" := by
    simp only [continuesB, hb, Bool.and_eq_true, Bool.not_eq_true',
      beq_eq_false_iff_ne] at hc
    exact ⟨hc.1.1, hc.1.2, hc.2⟩
  by_cases hp : d.status = some "processing"
  · exact ⟨[], Or.inl rfl, by simp [pollStep, hb, h'.1, h'.2.1, h'.2.2, hp]⟩
  · exact ⟨[.warn "unknown status"], Or.inr rfl,
      by simp [pollStep, hb, h'.1, h'.2.1, h'.2.2, hp]⟩

theorem pollStep_inr (runId : String) (a : Nat) (r : PollResponse)
    (last : LastLogged) (hc : continuesB r = true) :
    ∃ q, pollStep runId a r last = .inr q := by
  cases hb : r.body with
  | none =>
    exact ⟨([.sleep, .request a, .warn "status response is not valid JSON"], last),
      by simp [pollStep, hb]⟩
  | some d =>
    obtain ⟨tail, _, hstep⟩ := pollStep_continue_of_parsed runId a r last d hb hc
    exact ⟨_, hstep⟩

theorem pollStep_events_shape (runId : String) (a : Nat) (r : PollResponse)
    (last : LastLogged) :
    (∃ tail out, pollStep runId a r last =
        .inl (PollEvent.sleep :: PollEvent.request a :: tail, out) ∧
       ∀ e ∈ tail, isReq e = false) ∨
    (∃ tail next, pollStep runId a r last =
        .inr (PollEvent.sleep :: PollEvent.request a :: tail, next) ∧
       ∀ e ∈ tail, isReq e = false) := by
  cases hb : r.body with
  | none =>
    right
    refine ⟨[.warn "status response is not valid JSON"], last,
      by simp [pollStep, hb], ?_⟩
    intro e he
    simp at he
    subst he
    rfl
  | some d =>
    cases hok : responseOk r.status with
    | false =>
      left
      by_cases h4 : r.status = 404
      · exact ⟨[], .fatal (.notFound runId),
          by simp [pollStep, hb, hok, h4, responseOk], by simp⟩
      · by_cases h10 : r.status = 410
        · exact ⟨[], .fatal (.expired runId),
            by simp [pollStep, hb, hok, h4, h10, responseOk], by simp⟩
        · exact ⟨[], .fatal (.httpError runId r.status),
            by simp [pollStep, hb, hok, h4, h10], by simp⟩
    | true =>
      by_cases hcmp : d.status = some "completed"
      · left
        exact ⟨(processPipeline last d.pipeline).2, .completed d,
          by simp [pollStep, hb, hok, hcmp],
          fun e he => processPipeline_noReq last d.pipeline e he⟩
      · by_cases hf : d.status = some "failed"
        · left
          refine ⟨(processPipeline last d.pipeline).2 ++ [.warn "job failed"],
            .failedData (d.resultField.getD d.toJsonLeaf),
            by simp [pollStep, hb, hok, hcmp, hf], ?_⟩
          intro e he
          rcases List.mem_append.1 he with he | he
          · exact processPipeline_noReq last d.pipeline e he
          · simp at he; subst he; rfl
        · by_cases hp : d.status = some "processing"
          · right
            exact ⟨(processPipeline last d.pipeline).2,
              (processPipeline last d.pipeline).1,
              by simp [pollStep, hb, hok, hcmp, hf, hp],
              fun e he => processPipeline_noReq last d.pipeline e he⟩
          · right
            refine ⟨(processPipeline last d.pipeline).2 ++ [.warn "unknown status"],
              (processPipeline last d.pipeline).1,
              by simp [pollStep, hb, hok, hcmp, hf, hp], ?_⟩
            intro e he
            rcases List.mem_append.1 he with he | he
            · exact processPipeline_noReq last d.pipeline e he
            · simp at he; subst he; rfl

end PixelFrame
namespace PixelFrame

theorem pollFrom_timeout (runId : String) (responses : Nat → PollResponse) :
    ∀ (fuel a : Nat) (last : LastLogged),
      (∀ i, i < fuel → processingB (responses (a + i)) = true) →
      (pollFrom runId responses a fuel last).2 = .fatal (.timedOut runId) ∧
      countRequests (pollFrom runId responses a fuel last).1 = fuel := by
  intro fuel
  induction fuel with
  | zero => intro a last _; exact ⟨rfl, rfl⟩
  | succ f ih =>
    intro a last h
    have h0 := h 0 (Nat.succ_pos f)
    rw [Nat.add_zero] at h0
    obtain ⟨d, hb, hstep⟩ := pollStep_processing runId a (responses a) last h0
    have hrec := ih (a + 1) (processPipeline last d.pipeline).1
      (fun i hi => by
        have := h (i + 1) (by omega)
        rwa [show a + (i + 1) = a + 1 + i by omega] at this)
    simp only [pollFrom, hstep]
    refine ⟨hrec.1, ?_⟩
    rw [countRequests_append, countRequests_append, hrec.2,
      countRequests_processPipeline]
    have h1 : countRequests [PollEvent.sleep, PollEvent.request a] = 1 := rfl
    omega

theorem pollFrom_decomp (runId : String) (responses : Nat → PollResponse) :
    ∀ (n a fuel : Nat) (last : LastLogged), n ≤ fuel →
      (∀ i, i < n → continuesB (responses (a + i)) = true) →
      pollFrom runId responses a fuel last =
        ((pollSegment runId responses a last n).1 ++
          (pollFrom runId responses (a + n) (fuel - n)
            (pollSegment runId responses a last n).2).1,
         (pollFrom runId responses (a + n) (fuel - n)
            (pollSegment runId responses a last n).2).2) := by
  intro n
  induction n with
  | zero =>
    intro a fuel last _ _
    simp [pollSegment]
  | succ m ih =>
    intro a fuel last hle h
    cases fuel with
    | zero => omega
    | succ f =>
      have h0 := h 0 (Nat.succ_pos m)
      rw [Nat.add_zero] at h0
      obtain ⟨⟨evs, next⟩, hstep⟩ := pollStep_inr runId a (responses a) last h0
      have hrec := ih (a + 1) f next (by omega)
        (fun i hi => by
          have := h (i + 1) (by omega)
          rwa [show a + (i + 1) = a + 1 + i by omega] at this)
      simp only [pollFrom, pollSegment, hstep]
      rw [hrec]
      rw [show a + 1 + m = a + (m + 1) by omega,
        show f - m = f + 1 - (m + 1) by omega]
      simp [List.append_assoc]

end PixelFrame
namespace PixelFrame

theorem chkSleepReq_noreq_append (l1 : List PollEvent)
    (h : ∀ e ∈ l1, isReq e = false) :
    ∀ (p : Option PollEvent) (l2 : List PollEvent),
      (∀ q, chkSleepReq q l2 = true) → chkSleepReq p (l1 ++ l2) = true := by
  induction l1 with
  | nil => intro p l2 h2; exact h2 p
  | cons e es ih =>
    intro p l2 h2
    simp only [List.cons_append, chkSleepReq, h e (List.mem_cons_self e es),
      Bool.not_false, Bool.true_or, Bool.true_and]
    exact ih (fun x hx => h x (List.mem_cons_of_mem e hx)) (some e) l2 h2

theorem chkSleepReq_block (a : Nat) (tail l2 : List PollEvent)
    (h1 : ∀ e ∈ tail, isReq e = false)
    (h2 : ∀ q, chkSleepReq q l2 = true) (p : Option PollEvent) :
    chkSleepReq p (PollEvent.sleep :: PollEvent.request a :: (tail ++ l2)) = true := by
  have hh : chkSleepReq p (PollEvent.sleep :: PollEvent.request a :: (tail ++ l2)) =
      chkSleepReq (some (PollEvent.request a)) (tail ++ l2) := by
    simp [chkSleepReq, isReq]
  rw [hh]
  exact chkSleepReq_noreq_append tail h1 (some (PollEvent.request a)) l2 h2

theorem pollFrom_sleepLed (runId : String) (responses : Nat → PollResponse) :
    ∀ (fuel a : Nat) (last : LastLogged) (p : Option PollEvent),
      chkSleepReq p (pollFrom runId responses a fuel last).1 = true := by
  intro fuel
  induction fuel with
  | zero => intro a last p; rfl
  | succ f ih =>
    intro a last p
    rcases pollStep_events_shape runId a (responses a) last with
      ⟨tail, out, hstep, hnr⟩ | ⟨tail, next, hstep, hnr⟩
    · simp only [pollFrom, hstep]
      rw [show tail = tail ++ [] from (List.append_nil tail).symm] at hnr ⊢
      exact chkSleepReq_block a tail [] (fun e he => hnr e (by simpa using List.mem_append_left [] he)) (fun _ => rfl) p
    · simp only [pollFrom, hstep]
      show chkSleepReq p (PollEvent.sleep :: PollEvent.request a ::
        (tail ++ (pollFrom runId responses (a + 1) f next).1)) = true
      exact chkSleepReq_block a tail _ hnr (fun q => ih (a + 1) next q) p

end PixelFrame
namespace PixelFrame

theorem coderRepeat_dest {s : String} {r : PollResponse}
    (h : coderRepeatB s r = true) :
    ∃ d pl c, r.body = some d ∧ d.pipeline = some pl ∧ pl.coder = some c ∧
      c.status = some s := by
  cases hb : r.body with
  | none => simp [coderRepeatB, hb] at h
  | some d =>
    cases hpl : d.pipeline with
    | none => simp [coderRepeatB, hb, hpl] at h
    | some pl =>
      cases hc : pl.coder with
      | none => simp [coderRepeatB, hb, hpl, hc] at h
      | some c =>
        refine ⟨d, pl, c, rfl, hpl, hc, ?_⟩
        simp only [coderRepeatB, hb, hpl, hc, Bool.and_eq_true, beq_iff_eq] at h
        exact h.2

theorem continues_of_coderRepeat {s : String} {r : PollResponse}
    (h : coderRepeatB s r = true) : continuesB r = true := by
  cases hb : r.body with
  | none => simp [coderRepeatB, hb] at h
  | some d =>
    simp only [coderRepeatB, hb, Bool.and_eq_true] at h
    simp only [continuesB, hb, Bool.and_eq_true]
    exact h.1

theorem reviewerRepeat_dest {s : String} {r : PollResponse}
    (h : reviewerRepeatB s r = true) :
    ∃ d pl c, r.body = some d ∧ d.pipeline = some pl ∧ pl.reviewer = some c ∧
      c.status = some s := by
  cases hb : r.body with
  | none => simp [reviewerRepeatB, hb] at h
  | some d =>
    cases hpl : d.pipeline with
    | none => simp [reviewerRepeatB, hb, hpl] at h
    | some pl =>
      cases hc : pl.reviewer with
      | none => simp [reviewerRepeatB, hb, hpl, hc] at h
      | some c =>
        refine ⟨d, pl, c, rfl, hpl, hc, ?_⟩
        simp only [reviewerRepeatB, hb, hpl, hc, Bool.and_eq_true,
          beq_iff_eq] at h
        exact h.2

theorem continues_of_reviewerRepeat {s : String} {r : PollResponse}
    (h : reviewerRepeatB s r = true) : continuesB r = true := by
  cases hb : r.body with
  | none => simp [reviewerRepeatB, hb] at h
  | some d =>
    simp only [reviewerRepeatB, hb, Bool.and_eq_true] at h
    simp only [continuesB, hb, Bool.and_eq_true]
    exact h.1

theorem pollSegment_coder_zero (runId : String)
    (responses : Nat → PollResponse) (s : String) :
    ∀ (n a : Nat) (last : LastLogged),
      (∀ i, i < n → coderRepeatB s (responses (a + i)) = true) →
      last.coder = some s →
      countNotify "coder" (pollSegment runId responses a last n).1 = 0 ∧
      (pollSegment runId responses a last n).2.coder = some s := by
  intro n
  induction n with
  | zero => intro a last _ hl; exact ⟨rfl, hl⟩
  | succ m ih =>
    intro a last h hl
    have h0 := h 0 (Nat.succ_pos m)
    rw [Nat.add_zero] at h0
    obtain ⟨d, pl, c, hb, hpl, hc, hcs⟩ := coderRepeat_dest h0
    obtain ⟨tail, htail, hstep⟩ := pollStep_continue_of_parsed runId a
      (responses a) last d hb (continues_of_coderRepeat h0)
    have hpp := processPipeline_coder last pl c s hc hcs
    have hrec := ih (a + 1) (processPipeline last d.pipeline).1
      (fun i hi => by
        have := h (i + 1) (by omega)
        rwa [show a + (i + 1) = a + 1 + i by omega] at this)
      (by rw [hpl]; exact hpp.2)
    simp only [pollSegment, hstep]
    refine ⟨?_, hrec.2⟩
    rw [countNotify_append, countNotify_append, countNotify_append, hrec.1]
    have hpre : countNotify "coder" [PollEvent.sleep, PollEvent.request a] = 0 := rfl
    have htl : countNotify "coder" tail = 0 := by
      rcases htail with rfl | rfl <;> rfl
    have hmid : countNotify "coder" (processPipeline last d.pipeline).2 = 0 := by
      rw [hpl, hpp.1, hl, if_pos rfl]
    omega

theorem pollSegment_coder_one (runId : String)
    (responses : Nat → PollResponse) (s : String) (n a : Nat)
    (last : LastLogged) (hn : 0 < n)
    (h : ∀ i, i < n → coderRepeatB s (responses (a + i)) = true)
    (hl : last.coder ≠ some s) :
    countNotify "coder" (pollSegment runId responses a last n).1 = 1 ∧
    (pollSegment runId responses a last n).2.coder = some s := by
  cases n with
  | zero => omega
  | succ m =>
    have h0 := h 0 (Nat.succ_pos m)
    rw [Nat.add_zero] at h0
    obtain ⟨d, pl, c, hb, hpl, hc, hcs⟩ := coderRepeat_dest h0
    obtain ⟨tail, htail, hstep⟩ := pollStep_continue_of_parsed runId a
      (responses a) last d hb (continues_of_coderRepeat h0)
    have hpp := processPipeline_coder last pl c s hc hcs
    have hrec := pollSegment_coder_zero runId responses s m (a + 1)
      (processPipeline last d.pipeline).1
      (fun i hi => by
        have := h (i + 1) (by omega)
        rwa [show a + (i + 1) = a + 1 + i by omega] at this)
      (by rw [hpl]; exact hpp.2)
    simp only [pollSegment, hstep]
    refine ⟨?_, hrec.2⟩
    rw [countNotify_append, countNotify_append, countNotify_append, hrec.1]
    have hpre : countNotify "coder" [PollEvent.sleep, PollEvent.request a] = 0 := rfl
    have htl : countNotify "coder" tail = 0 := by
      rcases htail with rfl | rfl <;> rfl
    have hmid : countNotify "coder" (processPipeline last d.pipeline).2 = 1 := by
      rw [hpl, hpp.1, if_neg (fun hh => hl hh.symm)]
    omega

theorem pollSegment_reviewer_zero (runId : String)
    (responses : Nat → PollResponse) (s : String) :
    ∀ (n a : Nat) (last : LastLogged),
      (∀ i, i < n → reviewerRepeatB s (responses (a + i)) = true) →
      last.reviewer = some s →
      countNotify "reviewer" (pollSegment runId responses a last n).1 = 0 ∧
      (pollSegment runId responses a last n).2.reviewer = some s := by
  intro n
  induction n with
  | zero => intro a last _ hl; exact ⟨rfl, hl⟩
  | succ m ih =>
    intro a last h hl
    have h0 := h 0 (Nat.succ_pos m)
    rw [Nat.add_zero] at h0
    obtain ⟨d, pl, c, hb, hpl, hc, hcs⟩ := reviewerRepeat_dest h0
    obtain ⟨tail, htail, hstep⟩ := pollStep_continue_of_parsed runId a
      (responses a) last d hb (continues_of_reviewerRepeat h0)
    have hpp := processPipeline_reviewer last pl c s hc hcs
    have hrec := ih (a + 1) (processPipeline last d.pipeline).1
      (fun i hi => by
        have := h (i + 1) (by omega)
        rwa [show a + (i + 1) = a + 1 + i by omega] at this)
      (by rw [hpl]; exact hpp.2)
    simp only [pollSegment, hstep]
    refine ⟨?_, hrec.2⟩
    rw [countNotify_append, countNotify_append, countNotify_append, hrec.1]
    have hpre : countNotify "reviewer" [PollEvent.sleep, PollEvent.request a] = 0 := rfl
    have htl : countNotify "reviewer" tail = 0 := by
      rcases htail with rfl | rfl <;> rfl
    have hmid : countNotify "reviewer" (processPipeline last d.pipeline).2 = 0 := by
      rw [hpl, hpp.1, hl, if_pos rfl]
    omega

theorem pollSegment_reviewer_one (runId : String)
    (responses : Nat → PollResponse) (s : String) (n a : Nat)
    (last : LastLogged) (hn : 0 < n)
    (h : ∀ i, i < n → reviewerRepeatB s (responses (a + i)) = true)
    (hl : last.reviewer ≠ some s) :
    countNotify "reviewer" (pollSegment runId responses a last n).1 = 1 ∧
    (pollSegment runId responses a last n).2.reviewer = some s := by
  cases n with
  | zero => omega
  | succ m =>
    have h0 := h 0 (Nat.succ_pos m)
    rw [Nat.add_zero] at h0
    obtain ⟨d, pl, c, hb, hpl, hc, hcs⟩ := reviewerRepeat_dest h0
    obtain ⟨tail, htail, hstep⟩ := pollStep_continue_of_parsed runId a
      (responses a) last d hb (continues_of_reviewerRepeat h0)
    have hpp := processPipeline_reviewer last pl c s hc hcs
    have hrec := pollSegment_reviewer_zero runId responses s m (a + 1)
      (processPipeline last d.pipeline).1
      (fun i hi => by
        have := h (i + 1) (by omega)
        rwa [show a + (i + 1) = a + 1 + i by omega] at this)
      (by rw [hpl]; exact hpp.2)
    simp only [pollSegment, hstep]
    refine ⟨?_, hrec.2⟩
    rw [countNotify_append, countNotify_append, countNotify_append, hrec.1]
    have hpre : countNotify "reviewer" [PollEvent.sleep, PollEvent.request a] = 0 := rfl
    have htl : countNotify "reviewer" tail = 0 := by
      rcases htail with rfl | rfl <;> rfl
    have hmid : countNotify "reviewer" (processPipeline last d.pipeline).2 = 1 := by
      rw [hpl, hpp.1, if_neg (fun hh => hl hh.symm)]
    omega

end PixelFrame
namespace PixelFrame

/-- C1: the claim says no write or delete of the Plan Applier ever
touches a path outside the working tree.  The code resolves
`change.path` against the current directory with no containment check,
so the FileChange path `../evil.txt` under working tree
`/home/runner/work` is written to `/home/runner/evil.txt`, outside the
tree, and the deletion path `../../secrets` removes a directory outside
the tree: the resolved targets are not prefixed by the root. -/
theorem c1_path_traversal_unenforced :
    writeFileChangeTarget ["home", "runner", "work"] ["..", "evil.txt"] =
      ["home", "runner", "evil.txt"] ∧
    insideWorkTree ["home", "runner", "work"]
      (writeFileChangeTarget ["home", "runner", "work"] ["..", "evil.txt"]) =
      false ∧
    insideWorkTree ["home", "runner", "work"]
      (removeFileTarget ["home", "runner", "work"] ["..", "..", "secrets"]) =
      false := by
  decide

/-- C2 counterexample: a 404 response whose body is not valid JSON does
not raise the not-found error; the parse failure is handled first, the
iteration is skipped with a warning, and a run fed only such responses
consumes all 120 attempts and times out. -/
theorem c2_counterexample :
    (pollAgentStatus "job-1" c2Responses).2 = .fatal (.timedOut "job-1") ∧
    (pollAgentStatus "job-1" c2Responses).2 ≠ .fatal (.notFound "job-1") ∧
    countRequests (pollAgentStatus "job-1" c2Responses).1 = 120 := by
  set_option maxRecDepth 8000 in decide

/-- C2 (amended): provided the poll response body parses as JSON, an
HTTP 404 status raises the not-found error and an HTTP 410 status raises
the expired error, immediately and with exactly one request issued in
that iteration, whatever the remaining attempts and dedup state. -/
theorem c2_terminal_codes (runId : String) (responses : Nat → PollResponse)
    (a fuel : Nat) (last : LastLogged) (d : JsonBody) (hf : 0 < fuel)
    (hb : (responses a).body = some d) :
    ((responses a).status = 404 →
      pollFrom runId responses a fuel last =
        ([.sleep, .request a], .fatal (.notFound runId))) ∧
    ((responses a).status = 410 →
      pollFrom runId responses a fuel last =
        ([.sleep, .request a], .fatal (.expired runId))) := by
  cases fuel with
  | zero => omega
  | succ f =>
    constructor <;> intro hst <;>
      simp [pollFrom, pollStep, hb, hst, responseOk]

/-- C2 witness: a 404 response with a parseable body at the first
attempt of a full 120-attempt run raises the not-found error with a
single request issued. -/
theorem c2_witness :
    pollFrom "job-2" c2NotFoundResponses 0 120 ⟨none, none⟩ =
      ([.sleep, .request 0], .fatal (.notFound "job-2")) :=
  (c2_terminal_codes "job-2" c2NotFoundResponses 0 120 ⟨none, none⟩
    emptyBody (by decide) rfl).1 rfl

/-- C3: when every poll response parses and reports `processing`, the
poller performs exactly 120 poll attempts and then fails with the
timeout error naming the job id. -/
theorem c3_timeout_after_120 (runId : String)
    (responses : Nat → PollResponse)
    (h : ∀ i, i < 120 → processingB (responses i) = true) :
    (pollAgentStatus runId responses).2 = .fatal (.timedOut runId) ∧
    countRequests (pollAgentStatus runId responses).1 = 120 :=
  pollFrom_timeout runId responses 120 0 ⟨none, none⟩
    (fun i hi => by simpa using h i hi)

/-- C3 witness: the always-`processing` responses time out after exactly
120 requests. -/
theorem c3_witness :
    (pollAgentStatus "job-3" c3Responses).2 = .fatal (.timedOut "job-3") ∧
    countRequests (pollAgentStatus "job-3" c3Responses).1 = 120 :=
  c3_timeout_after_120 "job-3" c3Responses
    (by set_option maxRecDepth 2000 in decide)

/-- C4: for each tracked agent independently, a run of `n > 1`
consecutive poll responses repeating status `s` for that agent (with the
last-seen status different when the run begins) contributes exactly one
notification for that agent: the full trace splits into the segment of
those `n` iterations followed by the rest of the loop, and the segment
carries exactly one notification for the agent. -/
theorem c4_dedup_exactly_one (runId : String)
    (responses : Nat → PollResponse) (a fuel n : Nat) (last : LastLogged)
    (s : String) :
    ((∀ i, i < n → coderRepeatB s (responses (a + i)) = true) → 1 < n →
      n ≤ fuel → last.coder ≠ some s →
      (pollFrom runId responses a fuel last).1 =
        (pollSegment runId responses a last n).1 ++
          (pollFrom runId responses (a + n) (fuel - n)
            (pollSegment runId responses a last n).2).1 ∧
      countNotify "coder" (pollSegment runId responses a last n).1 = 1) ∧
    ((∀ i, i < n → reviewerRepeatB s (responses (a + i)) = true) → 1 < n →
      n ≤ fuel → last.reviewer ≠ some s →
      (pollFrom runId responses a fuel last).1 =
        (pollSegment runId responses a last n).1 ++
          (pollFrom runId responses (a + n) (fuel - n)
            (pollSegment runId responses a last n).2).1 ∧
      countNotify "reviewer" (pollSegment runId responses a last n).1 = 1) := by
  constructor
  · intro h hn hle hl
    have hdec := pollFrom_decomp runId responses n a fuel last hle
      (fun i hi => continues_of_coderRepeat (h i hi))
    exact ⟨by rw [hdec],
      (pollSegment_coder_one runId responses s n a last (by omega) h hl).1⟩
  · intro h hn hle hl
    have hdec := pollFrom_decomp runId responses n a fuel last hle
      (fun i hi => continues_of_reviewerRepeat (h i hi))
    exact ⟨by rw [hdec],
      (pollSegment_reviewer_one runId responses s n a last (by omega) h hl).1⟩

/-- C4 witness: two consecutive repeats of coder status `generating` and
reviewer status `validating` each yield exactly one notification, and
the trace decomposes around the two-iteration segment. -/
theorem c4_witness :
    countNotify "coder" (pollSegment "job-4" c4Responses 0 ⟨none, none⟩ 2).1 = 1 ∧
    countNotify "reviewer" (pollSegment "job-4" c4Responses 0 ⟨none, none⟩ 2).1 = 1 ∧
    (pollFrom "job-4" c4Responses 0 3 ⟨none, none⟩).1 =
      (pollSegment "job-4" c4Responses 0 ⟨none, none⟩ 2).1 ++
        (pollFrom "job-4" c4Responses (0 + 2) (3 - 2)
          (pollSegment "job-4" c4Responses 0 ⟨none, none⟩ 2).2).1 :=
  have hc := (c4_dedup_exactly_one "job-4" c4Responses 0 3 2 ⟨none, none⟩
    "generating").1 (by decide) (by decide) (by decide) (by decide)
  have hr := (c4_dedup_exactly_one "job-4" c4Responses 0 3 2 ⟨none, none⟩
    "validating").2 (by decide) (by decide) (by decide) (by decide)
  ⟨hc.2, hr.2, hc.1⟩

/-- C6: the Plan Applier's delete never fails on a missing target, and
deleting the same path twice in one plan application never fails:
`fs.rm` is invoked with `force: true, recursive: true`. -/
theorem c6_idempotent_delete (fs : List (List String)) (cwd p : List String) :
    ((fs.any fun q => (resolvePath cwd p).isPrefixOf q) = false →
      exceptOk (removeFile fs cwd p) = true) ∧
    (∀ fs2, removeFile fs cwd p = .ok fs2 →
      exceptOk (removeFile fs2 cwd p) = true) := by
  have key : ∀ g : List (List String), exceptOk (removeFile g cwd p) = true := by
    intro g
    unfold removeFile fsRm
    by_cases hE : (g.filter (fun q => (resolvePath cwd p).isPrefixOf q)).isEmpty = true
    · simp [hE, exceptOk]
    · simp [hE, exceptOk]
  exact ⟨fun _ => key fs, fun fs2 _ => key fs2⟩

/-- C6 witness: removing a missing file succeeds, and removing an
already-removed file succeeds. -/
theorem c6_witness :
    exceptOk (removeFile [["wt", "a.txt"]] ["wt"] ["missing.txt"]) = true ∧
    exceptOk (removeFile [] ["wt"] ["a.txt"]) = true :=
  ⟨(c6_idempotent_delete [["wt", "a.txt"]] ["wt"] ["missing.txt"]).1 (by decide),
   (c6_idempotent_delete [["wt", "a.txt"]] ["wt"] ["a.txt"]).2 [] (by rfl)⟩

/-- C10: in every iteration of the poll loop the fixed-interval sleep
precedes the status request: in the full trace of a polling run, every
request event is immediately preceded by a sleep event, and in
particular the first request only happens after a sleep. -/
theorem c10_sleep_precedes_every_request (runId : String)
    (responses : Nat → PollResponse) :
    chkSleepReq none (pollAgentStatus runId responses).1 = true :=
  pollFrom_sleepLed runId responses 120 0 ⟨none, none⟩ none

end PixelFrame
namespace PixelFrame

/-- C5: when staging after applying the plan produces no diff, the
driver skips the commit, no push runs, no pull-request API call is made,
and the result reports no PR number and no PR URL. -/
theorem c5_noop_commit (plan : Plan) (token : String) (ms : Option String)
    (env : RepoEnv) (b : String)
    (hb : jsOr (plan.commit.getD CommitSpec.empty).branch
      (jsOr plan.branch plan.branchName) = some b)
    (ht : token ≠ "") (hd : env.stagedDiffEmpty = true) :
    (maybeApplyRepositoryPlan (some plan) token ms env).2 = (none, none) ∧
    (maybeApplyRepositoryPlan (some plan) token ms env).1.any
      isCommitPushOrApiCall = false := by
  simp only [maybeApplyRepositoryPlan, hb, stageAndCommit, hd, if_true]
  simp [ht, isCommitPushOrApiCall, ensureGitUserConfigured,
    prepareBranchEffect]

/-- C5 witness: a concrete plan with branch `pf-branch` over an empty
staged diff yields no PR data and no commit, push or API effect. -/
theorem c5_witness :
    (maybeApplyRepositoryPlan (some c5Plan) "tok" none c5Env).2 =
      (none, none) ∧
    (maybeApplyRepositoryPlan (some c5Plan) "tok" none c5Env).1.any
      isCommitPushOrApiCall = false :=
  c5_noop_commit c5Plan "tok" none c5Env "pf-branch" (by decide) (by decide)
    (by decide)

/-- C7: an endpoint embedded in the payload under any accepted alias is
preferred to the base-URL route; with no payload endpoint and no base
URL resolution yields no endpoint, and the run then fails before any
remote call (no agent-call event at all). -/
theorem c7_endpoint_resolution :
    (∀ (joinAgentRun : String → Option String) (p : AgentPayload)
      (inputBase envBase c : String) (rest : List String),
      payloadCandidates p = c :: rest →
      resolveAgentUrl joinAgentRun (some p) inputBase envBase =
        .ok (some c)) ∧
    (∀ (joinAgentRun : String → Option String)
      (payload : Option AgentPayload),
      (payload = none ∨ ∃ p, payload = some p ∧ payloadCandidates p = []) →
      resolveAgentUrl joinAgentRun payload "" "" = .ok none) ∧
    (∀ inp : RunInputs,
      resolveAgentUrl inp.joinAgentRun inp.payload inp.pixelframeBaseUrl
        inp.envBaseUrl = .ok none →
      runModel inp = ([], false)) := by
  refine ⟨?_, ?_, ?_⟩
  · intro j p ib eb c rest hc
    simp [resolveAgentUrl, hc]
  · intro j payload hp
    rcases hp with rfl | ⟨p, rfl, hp⟩
    · simp [resolveAgentUrl]
    · simp [resolveAgentUrl, hp]
  · intro inp hres
    simp [runModel, hres]

/-- C7 witness: the `agent_url` alias wins over a provided base URL; an
all-falsy payload with no base resolves to nothing; and the concrete run
with nothing to resolve fails with an empty event trace. -/
theorem c7_witness :
    resolveAgentUrl (fun _ => none) (some c7Payload) "https://base.example"
      "" = .ok (some "https://pf.example/hook") ∧
    resolveAgentUrl (fun _ => none) none "" "" = .ok none ∧
    runModel c7Inputs = ([], false) :=
  ⟨c7_endpoint_resolution.1 _ c7Payload _ _ _ [] (by rfl),
   c7_endpoint_resolution.2.1 _ none (Or.inl rfl),
   c7_endpoint_resolution.2.2 c7Inputs (by rfl)⟩

/-- C9: a 2xx agent response with an empty body makes the invoker return
no value; the orchestrator then completes successfully with no outputs
published and no repository effect: the whole run trace is the single
agent call. -/
theorem c9_empty_body (inp : RunInputs) (u : String)
    (hres : resolveAgentUrl inp.joinAgentRun inp.payload
      inp.pixelframeBaseUrl inp.envBaseUrl = .ok (some u))
    (hok : responseOk inp.agentResp.status = true)
    (hraw : inp.agentResp.raw = "") :
    callAgent inp.agentResp inp.pollResponses = .ok none ∧
    runModel inp = ([.agentCall u], true) := by
  have hca : callAgent inp.agentResp inp.pollResponses = .ok none := by
    simp [callAgent, hraw, hok]
  refine ⟨hca, ?_⟩
  simp [runModel, hres, hca, maybeApplyRepositoryPlan, truthyN, truthyStr]

/-- C9 witness: concrete inputs whose agent call answers 200 with an
empty body produce no outputs and no repository operations. -/
theorem c9_witness :
    callAgent c9Inputs.agentResp c9Inputs.pollResponses = .ok none ∧
    runModel c9Inputs = ([.agentCall "https://x.example/agent/run"], true) :=
  c9_empty_body c9Inputs "https://x.example/agent/run" (by rfl) (by rfl)
    (by rfl)

end PixelFrame
namespace PixelFrame

/-- C8: when a merge is requested and a PR number is known, a merge
strategy outside merge/squash/rebase (lower-cased before the check) only
logs a warning and skips the merge call; the pull request is still
created and the result still carries its number and URL. -/
theorem c8_unsupported_merge_strategy (plan : Plan) (token : String)
    (ms : Option String) (env : RepoEnv) (b strat owner rname : String)
    (n : Nat)
    (hb : jsOr (plan.commit.getD CommitSpec.empty).branch
      (jsOr plan.branch plan.branchName) = some b)
    (ht : token ≠ "")
    (hrepo : parseRepository (jsOr plan.repositoryName env.githubRepository) =
      some (owner, rname))
    (hd : env.stagedDiffEmpty = false)
    (hnum : jsOrN (plan.pullRequest.getD PRSpec.empty).number
      (plan.pullRequest.getD PRSpec.empty).prNumber = none)
    (happi : truthyN env.prApiNumber = some n)
    (hmerge : ((plan.pullRequest.getD PRSpec.empty).merge || plan.merge) = true)
    (hstrat : jsOr ms (plan.pullRequest.getD PRSpec.empty).mergeStrategy =
      some strat)
    (hunsup : ¬(lowerString strat = "merge" ∨ lowerString strat = "squash" ∨
      lowerString strat = "rebase")) :
    (maybeApplyRepositoryPlan (some plan) token ms env).2 =
      (some n, some ("https://github.com/" ++ owner ++ "/" ++ rname ++
        "/pull/" ++ toString n)) ∧
    (maybeApplyRepositoryPlan (some plan) token ms env).1.any
      isMergeApiCall = false ∧
    RepoEffect.warnUnsupportedMergeStrategy strat ∈
      (maybeApplyRepositoryPlan (some plan) token ms env).1 ∧
    RepoEffect.apiCreatePullRequest b
      ((truthyStr (jsOr (plan.commit.getD CommitSpec.empty).base
        plan.baseBranch)).getD "main") ∈
      (maybeApplyRepositoryPlan (some plan) token ms env).1 := by
  obtain ⟨hn0, hnn⟩ := truthyN_eq_some happi
  obtain ⟨hs0, hss⟩ := jsOr_eq_some hstrat
  obtain ⟨hb0, hbb⟩ := jsOr_eq_some hb
  have hguard : ¬(some (owner, rname) = none ∨ b = "" ∨ token = "") := by
    simp [hb0, ht]
  simp only [maybeApplyRepositoryPlan, hb, hrepo, stageAndCommit, hd,
    createOrUpdatePullRequest, hnum, hmerge, if_true, happi,
    Bool.false_eq_true, if_false, if_neg ht, if_neg hguard, hnn, hstrat,
    maybeMergePullRequest, hss, if_neg hunsup, ensureGitUserConfigured,
    prepareBranchEffect]
  rcases hrev : (plan.pullRequest.getD PRSpec.empty).reviewers with _ | rev
  · simp only [hrev]
    exact ⟨by rfl, by simp [isMergeApiCall], by simp, by simp⟩
  · simp only [hrev, requestReviewsIfNeeded, hnn, if_neg ht]
    refine ⟨by rfl, ?_, by simp, by simp⟩
    simp [isMergeApiCall]

/-- C8 witness: merge strategy `fast-forward` on a created PR number 7
yields the unsupported-strategy warning, no merge API call, and the PR
URL is still produced. -/
theorem c8_witness :
    (maybeApplyRepositoryPlan (some c8Plan) "tok" (some "fast-forward")
      c8Env).2 = (some 7, some "https://github.com/acme/widgets/pull/7") ∧
    (maybeApplyRepositoryPlan (some c8Plan) "tok" (some "fast-forward")
      c8Env).1.any isMergeApiCall = false ∧
    RepoEffect.warnUnsupportedMergeStrategy "fast-forward" ∈
      (maybeApplyRepositoryPlan (some c8Plan) "tok" (some "fast-forward")
        c8Env).1 ∧
    RepoEffect.apiCreatePullRequest "feat-1" "main" ∈
      (maybeApplyRepositoryPlan (some c8Plan) "tok" (some "fast-forward")
        c8Env).1 := by
  have h := c8_unsupported_merge_strategy c8Plan "tok" (some "fast-forward")
    c8Env "feat-1" "fast-forward" "acme" "widgets" 7 (by decide) (by decide)
    (by decide) (by decide) (by decide) (by decide) (by decide) (by decide)
    (by decide)
  refine ⟨h.1.trans (by decide), h.2.1, h.2.2.1, ?_⟩
  have hbase : ((truthyStr (jsOr (c8Plan.commit.getD CommitSpec.empty).base
      c8Plan.baseBranch)).getD "main") = "main" := by decide
  exact hbase ▸ h.2.2.2

end PixelFrame
